import Mathlib

/-!
Shallow embedding of the core of the `apple-containers` VS Code extension:
the CLI wrapper (`ContainerCli` in cli.ts), the response normalizer
(`parseRawContainer`, `parseRawImage`) and the tree-data providers
(`ContainersProvider`, `ImagesProvider`, `VolumesProvider`,
`NetworksProvider`), modelled as pure functions and explicit state
transition functions.  JavaScript numbers that are used as non-negative
integers are modelled as `Nat`; absent (`undefined`) fields as `Option`;
JS objects as structures; JS string falsiness (`x || d`) via `jsOrD`.
-/

/-- JS `x || d` on strings: an absent value or the empty string falls back
to the default `d`. -/
def jsOrD (o : Option String) (d : String) : String :=
  match o with
  | some v => if v = "" then d else v
  | none => d

/-- Character-wise lower casing, embedding `String.prototype.toLowerCase`
for the ASCII strings the CLI produces. -/
def strToLower (s : String) : String :=
  ⟨s.data.map Char.toLower⟩

/-- JS `s.trim()` restricted to ASCII whitespace (the only whitespace that
occurs in CLI stdout). -/
def jsWhitespace (c : Char) : Bool :=
  c = ' ' ∨ c = '\t' ∨ c = '\n' ∨ c = '\r'

/-- Embeds `stdout.trim()` from cli.ts `execute`. -/
def strTrim (s : String) : String :=
  ⟨((s.data.dropWhile jsWhitespace).reverse.dropWhile jsWhitespace).reverse⟩

/-- `ContainerStatus` enum from types.ts. -/
inductive ContainerStatus where
  | Running
  | Stopped
  | Created
  | Paused
  | Exited
  | Unknown
deriving DecidableEq, Repr

/-- `PortMapping` from types.ts. -/
structure PortMapping where
  hostIp : Option String
  hostPort : Nat
  containerPort : Nat
  protocol : String
deriving DecidableEq, Repr

/-- `Container` from types.ts. -/
structure Container where
  id : String
  name : String
  image : String
  status : ContainerStatus
  created : String
  ports : Option (List PortMapping)
  labels : Option (List (String × String))
deriving DecidableEq, Repr

/-- `Image` from types.ts (list-summary entity). -/
structure Image where
  id : String
  repository : String
  tag : String
  digest : Option String
  size : String
  sizeBytes : Option Nat
  created : String
  labels : Option (List (String × String))
deriving DecidableEq, Repr

/-- `CliResult<T>` from types.ts: the uniform result envelope of the
execution gateway. -/
structure CliResult (T : Type) where
  success : Bool
  data : Option T
  error : Option String
  exitCode : Int
deriving DecidableEq, Repr

/-- `ExtensionConfig` from types.ts. -/
structure ExtensionConfig where
  containerPath : String
  refreshInterval : Nat
  showStoppedContainers : Bool
  defaultShell : String
  confirmBeforeDelete : Bool
deriving DecidableEq, Repr

/-- Raw published-port record as read by `parseRawContainer` (cli.ts). -/
structure RawPort where
  hostAddress : Option String := none
  hostPort : Nat := 0
  containerPort : Nat := 0
  proto : Option String := none
deriving DecidableEq, Repr

/-- Raw `configuration.image` record as read by `parseRawContainer`. -/
structure RawImageInfo where
  reference : Option String := none
deriving DecidableEq, Repr

/-- Raw `configuration` record as read by `parseRawContainer`. -/
structure RawConfig where
  id : Option String := none
  image : Option RawImageInfo := none
  publishedPorts : Option (List RawPort) := none
  labels : Option (List (String × String)) := none
deriving DecidableEq, Repr

/-- Raw container record from `container list --format json`, as read by
`parseRawContainer` (cli.ts): only `configuration` and `status` are
accessed. -/
structure RawContainer where
  configuration : Option RawConfig := none
  status : Option String := none
deriving DecidableEq, Repr

/-- The port mapping step inside `parseRawContainer` (cli.ts):
`hostIp := p.hostAddress || undefined`, `protocol := p.proto || 'tcp'`. -/
def parsePublishedPort (p : RawPort) : PortMapping :=
  { hostIp :=
      match p.hostAddress with
      | some a => if a = "" then none else some a
      | none => none
    hostPort := p.hostPort
    containerPort := p.containerPort
    protocol := jsOrD p.proto "tcp" }

/-- The status `switch` inside `parseRawContainer` (cli.ts):
`(raw.status as string || '').toLowerCase()` then the four recognized
cases, defaulting to `Unknown`. -/
def normalizeRawStatus (rawStatus : Option String) : ContainerStatus :=
  let s := strToLower (jsOrD rawStatus "")
  if s = "running" then ContainerStatus.Running
  else if s = "stopped" ∨ s = "exited" then ContainerStatus.Stopped
  else if s = "created" then ContainerStatus.Created
  else if s = "paused" then ContainerStatus.Paused
  else ContainerStatus.Unknown

/-- `ContainerCli.parseRawContainer` (cli.ts): normalizes one raw list
record into a `Container`.  `raw.configuration || {}` and
`config.image || {}` become `Option.getD` with all-absent defaults;
`config.id as string || ''` is `jsOrD`; `created` is the literal `''`;
`ports` is the mapped list when non-empty, else absent. -/
def parseRawContainer (raw : RawContainer) : Container :=
  let config := raw.configuration.getD {}
  let imageInfo := config.image.getD {}
  let publishedPorts := config.publishedPorts.getD []
  let ports := publishedPorts.map parsePublishedPort
  { id := jsOrD config.id ""
    name := jsOrD config.id ""
    image := jsOrD imageInfo.reference "unknown"
    status := normalizeRawStatus raw.status
    created := ""
    ports := if ports.length > 0 then some ports else none
    labels := config.labels }

/-- Success branch of `ContainerCli.execute` (cli.ts): the subprocess
exited cleanly with output `stdout`.  `jsonDecodes` abstracts whether
`JSON.parse(stdout)` succeeds (the parsed value itself is abstracted as
the source text in `data`).  The JSON path is only entered when
`parseJson` is set and the trimmed stdout is non-empty (JS truthiness of
`stdout.trim()`). -/
def executeOnSuccess (parseJson : Bool) (stdout : String) (jsonDecodes : Bool) :
    CliResult String :=
  if parseJson ∧ strTrim stdout ≠ "" then
    if jsonDecodes then
      { success := true, data := some stdout, error := none, exitCode := 0 }
    else
      { success := false, data := none,
        error := some "Failed to parse JSON output", exitCode := 0 }
  else
    { success := true, data := some stdout, error := none, exitCode := 0 }

/-- `ContainerCli.listContainers` (cli.ts), from the gateway result to the
cached list: on `success && data` the raw records are mapped through
`parseRawContainer`; on failure the function returns the empty list. -/
def listContainersResult (result : CliResult (List RawContainer)) : List Container :=
  match result.success, result.data with
  | true, some rawData => rawData.map parseRawContainer
  | _, _ => []

/-- Follows the spec's words (§4.3 status normalization): lower-case the
raw status string; map running→Running, stopped|exited→Stopped,
created→Created, paused→Paused; any other value, including an absent
field, →Unknown. -/
def specStatusNormalization (rawStatus : Option String) : ContainerStatus :=
  match strToLower (rawStatus.getD "") with
  | "running" => ContainerStatus.Running
  | "stopped" => ContainerStatus.Stopped
  | "exited" => ContainerStatus.Stopped
  | "created" => ContainerStatus.Created
  | "paused" => ContainerStatus.Paused
  | _ => ContainerStatus.Unknown

/-- Mutable state of `ContainersProvider` (containersProvider.ts) together
with the instrumentation needed to count subprocess launches:
`containers` is `_containers`, `initialLoadDone` is `_initialLoadDone`,
`inFlight` counts CLI invocations started but not yet completed,
`launched` counts all CLI invocations ever started, and
`notificationsFired` counts `_onDidChangeTreeData.fire()` calls. -/
structure ContainersProviderState where
  containers : List Container
  initialLoadDone : Bool
  inFlight : Nat
  launched : Nat
  notificationsFired : Nat
deriving DecidableEq, Repr

/-- Events that drive `ContainersProvider`.  `tick`: the `setInterval`
callback installed by `startAutoRefresh` fires.  `refreshComplete r`: the
`await this._cli.listContainers(showAll)` inside `refresh` resolves with
the gateway result `r` and the rest of the `refresh` body runs.
`getChildrenCall`: the host reads the root of the tree
(`getChildren(undefined)`). -/
inductive ProviderEvent where
  | tick
  | refreshComplete (r : CliResult (List RawContainer))
  | getChildrenCall
deriving DecidableEq

/-- One step of `ContainersProvider` (containersProvider.ts).
A `tick` runs `() => { this.refresh(); }` unconditionally; `refresh()`
synchronously reaches `this._cli.listContainers(...)`, which spawns one
subprocess via `execFile` before suspending — so every tick launches one
new invocation, whatever is already in flight (there is no guard flag in
the source).  `refreshComplete r` runs the remainder of `refresh`:
`this._containers = await ...` (the empty list when `r` failed, see
`listContainersResult`), `this._initialLoadDone = true`, and
`this._onDidChangeTreeData.fire()` — unconditionally.  `getChildrenCall`
awaits `refresh()` only when `_initialLoadDone` is still false (the
launch is counted here; its completion is a later `refreshComplete`). -/
def providerStep (s : ContainersProviderState) : ProviderEvent → ContainersProviderState
  | ProviderEvent.tick =>
      { s with inFlight := s.inFlight + 1, launched := s.launched + 1 }
  | ProviderEvent.refreshComplete r =>
      { s with
          inFlight := s.inFlight - 1
          containers := listContainersResult r
          initialLoadDone := true
          notificationsFired := s.notificationsFired + 1 }
  | ProviderEvent.getChildrenCall =>
      if s.initialLoadDone then s
      else { s with inFlight := s.inFlight + 1, launched := s.launched + 1 }

/-- Folds a sequence of events through `providerStep`. -/
def runEvents (s : ContainersProviderState) (es : List ProviderEvent) :
    ContainersProviderState :=
  es.foldl providerStep s

/-- Mutable state of `ImagesProvider` (imagesProvider.ts), instrumented
like `ContainersProviderState`.  `VolumesProvider` and `NetworksProvider`
have literally the same refresh/getChildren logic over their own entity
type; this one model stands for the family. -/
structure ImagesProviderState where
  images : List Image
  inFlight : Nat
  launched : Nat
  notificationsFired : Nat
deriving DecidableEq, Repr

/-- Events that drive `ImagesProvider`; `refreshComplete imgs` carries the
already-normalized list returned by `await this._cli.listImages()` (the
empty list when the underlying invocation failed). -/
inductive ImagesProviderEvent where
  | tick
  | refreshComplete (imgs : List Image)
  | getChildrenCall
deriving DecidableEq

/-- One step of `ImagesProvider` (imagesProvider.ts).  As for containers,
a `tick` launches a refresh subprocess unconditionally.  `getChildrenCall`
awaits `refresh()` whenever `this._images.length === 0` — there is no
first-load flag in this provider, so the guard looks only at emptiness of
the cached list (the returned items are the sorted snapshot; sorting does
not affect the guard). -/
def imagesProviderStep (s : ImagesProviderState) : ImagesProviderEvent → ImagesProviderState
  | ImagesProviderEvent.tick =>
      { s with inFlight := s.inFlight + 1, launched := s.launched + 1 }
  | ImagesProviderEvent.refreshComplete imgs =>
      { s with
          inFlight := s.inFlight - 1
          images := imgs
          notificationsFired := s.notificationsFired + 1 }
  | ImagesProviderEvent.getChildrenCall =>
      if s.images.length = 0 then
        { s with inFlight := s.inFlight + 1, launched := s.launched + 1 }
      else s

/-- Folds a sequence of events through `imagesProviderStep`. -/
def runImagesEvents (s : ImagesProviderState) (es : List ImagesProviderEvent) :
    ImagesProviderState :=
  es.foldl imagesProviderStep s

/-- `startAutoRefresh` of each provider: installs a repeating timer with
the interval read from the configuration at call time, only when that
interval is positive (`if (interval > 0) { setInterval(..., interval) }`);
otherwise the timer field is left as it was.  The `Option Nat` records the
period of the running timer, `none` meaning no timer. -/
def startAutoRefreshTimer (cfg : ExtensionConfig) (timer : Option Nat) : Option Nat :=
  if cfg.refreshInterval > 0 then some cfg.refreshInterval else timer

/-- `stopAutoRefresh` of each provider: `clearInterval` and reset. -/
def stopAutoRefreshTimer (_timer : Option Nat) : Option Nat :=
  none

/-- Process-wide state relevant to configuration changes: the
`ContainerCli._config` value and the four providers' repeating timers. -/
structure ExtensionSystemState where
  config : ExtensionConfig
  containersTimer : Option Nat
  imagesTimer : Option Nat
  volumesTimer : Option Nat
  networksTimer : Option Nat
deriving DecidableEq, Repr

/-- State after `activate` (extension.ts): each provider's constructor
calls `startAutoRefresh()` under the initial configuration. -/
def activateProvidersState (cfg : ExtensionConfig) : ExtensionSystemState :=
  { config := cfg
    containersTimer := startAutoRefreshTimer cfg none
    imagesTimer := startAutoRefreshTimer cfg none
    volumesTimer := startAutoRefreshTimer cfg none
    networksTimer := startAutoRefreshTimer cfg none }

/-- The only `onDidChangeConfiguration` handler in the source (the
`ContainerCli` constructor, cli.ts): when a change affects the
`appleContainers` section it re-runs `loadConfig()` and stores the result
in `this._config`.  No provider method is invoked from any configuration
listener — in particular no `stopAutoRefresh`/`startAutoRefresh`. -/
def onDidChangeConfigurationStep (s : ExtensionSystemState)
    (newCfg : ExtensionConfig) : ExtensionSystemState :=
  { s with config := newCfg }

/-- Last index of the character `c` in the list, counted from the front,
`none` when absent: helper implementing JS `String.prototype.lastIndexOf`
character search. -/
def lastIdxAux : List Char → Char → Option Nat
  | [], _ => none
  | ch :: rest, c =>
    match lastIdxAux rest c with
    | some i => some (i + 1)
    | none => if ch = c then some 0 else none

/-- JS `reference.lastIndexOf(c)`: the last index of `c`, or `-1`. -/
def lastIndexOf (s : String) (c : Char) : Int :=
  match lastIdxAux s.data c with
  | some i => (i : Int)
  | none => -1

/-- JS `s.startsWith(p)` over the character lists. -/
def dataStarts (s p : String) : Bool :=
  decide (s.data.take p.data.length = p.data)

/-- The docker.io simplification at the end of
`ContainerCli.parseRawImage` (cli.ts): strip a leading
`docker.io/library/`, else a leading `docker.io/`, from the repository. -/
def stripLibraryRegistry (repository : String) : String :=
  if dataStarts repository "docker.io/library/" then
    ⟨repository.data.drop "docker.io/library/".data.length⟩
  else if dataStarts repository "docker.io/" then
    ⟨repository.data.drop "docker.io/".data.length⟩
  else repository

/-- The reference decomposition inside `ContainerCli.parseRawImage`
(cli.ts): find the last ':' and the last '/'; when the last ':' comes
after the last '/', the repository is the text before it and the tag the
text after it, otherwise the whole reference is the repository and the
tag defaults to "latest"; afterwards the docker.io prefix simplification
is applied to the repository. -/
def decomposeReference (reference : String) : String × String :=
  let lastColon : Int := lastIndexOf reference ':'
  let lastSlash : Int := lastIndexOf reference '/'
  if lastColon > lastSlash then
    (stripLibraryRegistry ⟨reference.data.take lastColon.toNat⟩,
     ⟨reference.data.drop (lastColon.toNat + 1)⟩)
  else
    (stripLibraryRegistry reference, "latest")

/-- Port entry of `RunContainerOptions` (types.ts). -/
structure RunPort where
  host : Nat
  container : Nat
  hostIp : Option String := none
  protocol : Option String := none
deriving DecidableEq, Repr

/-- Volume entry of `RunContainerOptions` (types.ts); an absent
`readonly` is falsy like `false`. -/
structure RunVolume where
  source : String
  target : String
  readonly : Bool := false
deriving DecidableEq, Repr

/-- Mount entry of `RunContainerOptions` (types.ts); `type` is one of
the strings `bind`, `volume`, `tmpfs`. -/
structure RunMount where
  type : String
  source : String
  target : String
  readonly : Bool := false
deriving DecidableEq, Repr

/-- `RunContainerOptions` (types.ts).  Optional booleans are modelled as
`Bool` defaulting to `false` (absent and `false` are equally falsy in the
source's `if` guards); maps as association lists in insertion order. -/
structure RunContainerOptions where
  image : String
  name : Option String := none
  detach : Bool := false
  interactive : Bool := false
  tty : Bool := false
  remove : Bool := false
  env : Option (List (String × String)) := none
  envFile : Option String := none
  ports : Option (List RunPort) := none
  volumes : Option (List RunVolume) := none
  mounts : Option (List RunMount) := none
  network : Option String := none
  workdir : Option String := none
  user : Option String := none
  cpus : Option Nat := none
  memory : Option String := none
  entrypoint : Option String := none
  cmd : Option (List String) := none
  platform : Option String := none
  labels : Option (List (String × String)) := none
  dns : Option (List String) := none
  dnsSearch : Option (List String) := none
  rosetta : Bool := false
  ssh : Bool := false
deriving DecidableEq, Repr

/-- An optional string flag in `runContainer` (cli.ts):
`if (options.x) { args.push('--x', options.x); }` — absent or empty
strings are falsy and contribute no tokens. -/
def optStrTokens (flag : String) (o : Option String) : List String :=
  match o with
  | some v => if v = "" then [] else [flag, v]
  | none => []

/-- A boolean flag in `runContainer` (cli.ts):
`if (options.x) { args.push('--x'); }`. -/
def boolFlagTokens (flag : String) (b : Bool) : List String :=
  if b then [flag] else []

/-- A map-typed field in `runContainer` (cli.ts): one `--flag key=value`
pair per entry in insertion order. -/
def kvPairTokens (flag : String) (o : Option (List (String × String))) : List String :=
  match o with
  | some kvs => kvs.foldr (fun kv acc => flag :: (kv.1 ++ "=" ++ kv.2) :: acc) []
  | none => []

/-- A list-typed field in `runContainer` (cli.ts): the per-entry tokens
`f x`, concatenated in order; an absent list contributes nothing. -/
def eachTokens {α : Type} (f : α → List String) (o : Option (List α)) : List String :=
  match o with
  | some xs => xs.foldr (fun x acc => f x ++ acc) []
  | none => []

/-- The `portSpec` string built per port in `runContainer` (cli.ts):
`[hostIp:]host:container[/protocol]`, the protocol suffix only when
present and different from `tcp`. -/
def portSpec (p : RunPort) : String :=
  (match p.hostIp with
   | some ip => if ip = "" then "" else ip ++ ":"
   | none => "")
  ++ toString p.host ++ ":" ++ toString p.container
  ++ (match p.protocol with
      | some proto => if proto = "" ∨ proto = "tcp" then "" else "/" ++ proto
      | none => "")

/-- The `volSpec` string built per volume in `runContainer` (cli.ts):
`source:target[:ro]`. -/
def volSpec (v : RunVolume) : String :=
  v.source ++ ":" ++ v.target ++ (if v.readonly then ":ro" else "")

/-- The `mountSpec` string built per mount in `runContainer` (cli.ts):
`type=T,source=S,target=D[,readonly]`. -/
def mountSpec (m : RunMount) : String :=
  "type=" ++ m.type ++ ",source=" ++ m.source ++ ",target=" ++ m.target
  ++ (if m.readonly then ",readonly" else "")

/-- `ContainerCli.runContainer` (cli.ts): the argument vector built for a
run request, with every field in the source's order.  `cpus` follows JS
number falsiness (`0` contributes nothing); `cmd` is spread at the end
after the image. -/
def runContainerArgs (o : RunContainerOptions) : List String :=
  ["run"]
  ++ optStrTokens "--name" o.name
  ++ boolFlagTokens "--detach" o.detach
  ++ boolFlagTokens "--rm" o.remove
  ++ boolFlagTokens "--interactive" o.interactive
  ++ boolFlagTokens "--tty" o.tty
  ++ kvPairTokens "--env" o.env
  ++ optStrTokens "--env-file" o.envFile
  ++ eachTokens (fun p => ["--publish", portSpec p]) o.ports
  ++ eachTokens (fun v => ["--volume", volSpec v]) o.volumes
  ++ eachTokens (fun m => ["--mount", mountSpec m]) o.mounts
  ++ optStrTokens "--network" o.network
  ++ optStrTokens "--workdir" o.workdir
  ++ optStrTokens "--user" o.user
  ++ (match o.cpus with
      | some n => if n = 0 then [] else ["--cpus", toString n]
      | none => [])
  ++ optStrTokens "--memory" o.memory
  ++ optStrTokens "--platform" o.platform
  ++ optStrTokens "--entrypoint" o.entrypoint
  ++ kvPairTokens "--label" o.labels
  ++ eachTokens (fun d => ["--dns", d]) o.dns
  ++ eachTokens (fun d => ["--dns-search", d]) o.dnsSearch
  ++ boolFlagTokens "--rosetta" o.rosetta
  ++ boolFlagTokens "--ssh" o.ssh
  ++ [o.image]
  ++ o.cmd.getD []

/-- The run request of the spec's sample: one port `8080:80`, one
read-only volume `/data:/app`, everything else absent. -/
def sampleRunRequest : RunContainerOptions :=
  { image := "nginx:latest"
    ports := some [{ host := 8080, container := 80 }]
    volumes := some [{ source := "/data", target := "/app", readonly := true }] }

theorem jsOrD_empty (o : Option String) : jsOrD o "" = o.getD "" := by
  cases o with
  | none => rfl
  | some v =>
    simp only [jsOrD, Option.getD_some]
    split <;> simp_all

theorem normalizeRawStatus_eq_spec (o : Option String) :
    normalizeRawStatus o = specStatusNormalization o := by
  rw [normalizeRawStatus, specStatusNormalization, jsOrD_empty]
  set s := strToLower (o.getD "") with hs
  by_cases h1 : s = "running"
  · simp [h1]
  · by_cases h2 : s = "stopped"
    · simp [h1, h2]
    · by_cases h3 : s = "exited"
      · simp [h1, h2, h3]
      · by_cases h4 : s = "created"
        · simp [h1, h2, h3, h4]
        · by_cases h5 : s = "paused"
          · simp [h1, h2, h3, h4, h5]
          · simp [h1, h2, h3, h4, h5]

/-- C8: container status normalization is a total function: the status
field produced by `parseRawContainer` lower-cases the raw string and maps
running→Running, stopped|exited→Stopped, created→Created, paused→Paused,
and everything else (including an absent status field) to Unknown; being
a Lean function it can never fail.  Concrete conjuncts check the spec's
sample inputs. -/
theorem c8_status_normalization_total :
    (∀ raw : RawContainer,
       (parseRawContainer raw).status = specStatusNormalization raw.status)
    ∧ (parseRawContainer { status := some "Running" }).status = ContainerStatus.Running
    ∧ (parseRawContainer { status := some "RUNNING" }).status = ContainerStatus.Running
    ∧ (parseRawContainer { status := some "exited" }).status = ContainerStatus.Stopped
    ∧ (parseRawContainer { status := some "stopped" }).status = ContainerStatus.Stopped
    ∧ (parseRawContainer { status := some "created" }).status = ContainerStatus.Created
    ∧ (parseRawContainer { status := some "paused" }).status = ContainerStatus.Paused
    ∧ (parseRawContainer { status := some "" }).status = ContainerStatus.Unknown
    ∧ (parseRawContainer { status := none }).status = ContainerStatus.Unknown := by
  refine ⟨?_, ?_, ?_, ?_, ?_, ?_, ?_, ?_, ?_⟩
  · intro raw
    show normalizeRawStatus raw.status = specStatusNormalization raw.status
    exact normalizeRawStatus_eq_spec raw.status
  all_goals decide

/-- C10: for every raw list record, the `Container` built by
`parseRawContainer` has `name = id` (both `configuration.id`, defaulting
to the empty string when absent) and `created = ""`. -/
theorem c10_name_equals_id_created_empty :
    ∀ raw : RawContainer,
      (parseRawContainer raw).name = (parseRawContainer raw).id
      ∧ (parseRawContainer raw).id = jsOrD (raw.configuration.getD {}).id ""
      ∧ (parseRawContainer raw).created = "" := by
  intro raw
  exact ⟨rfl, rfl, rfl⟩

/-- C1 counterexample: with one refresh already in flight for the
containers kind, a newly fired scheduler tick is not a no-op — it launches
a second subprocess invocation, so two are in flight at once. -/
theorem c1_tick_overlap_counterexample :
    (providerStep ⟨[], false, 1, 1, 0⟩ ProviderEvent.tick).launched = 2
    ∧ (providerStep ⟨[], false, 1, 1, 0⟩ ProviderEvent.tick).inFlight = 2 := by
  decide

/-- C1 amended: every fired tick starts a new refresh subprocess
invocation unconditionally (the source's interval callback has no
in-flight guard), so after `n` ticks with no completions in between, the
number of launched and of in-flight invocations has grown by exactly `n`
— unbounded rather than at most one per kind. -/
theorem c1_every_tick_launches :
    ∀ (s : ContainersProviderState) (n : Nat),
      (runEvents s (List.replicate n ProviderEvent.tick)).launched = s.launched + n
      ∧ (runEvents s (List.replicate n ProviderEvent.tick)).inFlight = s.inFlight + n := by
  intro s n
  induction n generalizing s with
  | zero => simp [runEvents]
  | succ k ih =>
    have hrep : List.replicate (k + 1) ProviderEvent.tick
        = ProviderEvent.tick :: List.replicate k ProviderEvent.tick := rfl
    have hstep : runEvents s (ProviderEvent.tick :: List.replicate k ProviderEvent.tick)
        = runEvents (providerStep s ProviderEvent.tick) (List.replicate k ProviderEvent.tick) := rfl
    have h := ih (providerStep s ProviderEvent.tick)
    rw [hrep, hstep]
    refine ⟨?_, ?_⟩
    · rw [h.1]
      show s.launched + 1 + k = s.launched + (k + 1)
      omega
    · rw [h.2]
      show s.inFlight + 1 + k = s.inFlight + (k + 1)
      omega

/-- C2 counterexample: starting from a populated snapshot holding one
container, a refresh whose CLI invocation failed replaces the snapshot
with the empty list (the previous snapshot is not kept) and still fires a
change notification. -/
theorem c2_failed_refresh_counterexample :
    (providerStep
        ⟨[parseRawContainer
            { configuration := some { id := some "web" }, status := some "running" }],
          true, 1, 1, 0⟩
        (ProviderEvent.refreshComplete
          { success := false, data := none, error := some "boom", exitCode := 1 })).containers
      ≠ [parseRawContainer
          { configuration := some { id := some "web" }, status := some "running" }]
    ∧ (providerStep
        ⟨[parseRawContainer
            { configuration := some { id := some "web" }, status := some "running" }],
          true, 1, 1, 0⟩
        (ProviderEvent.refreshComplete
          { success := false, data := none, error := some "boom", exitCode := 1 })).notificationsFired
      = 1 := by
  decide

/-- C2 amended: when the underlying CLI invocation fails,
`listContainers` returns the empty list, so the completing refresh
replaces the cached snapshot with `[]` (discarding whatever was cached)
and unconditionally fires the change notification — the failure is not
swallowed into staleness. -/
theorem c2_failed_refresh_clears_and_notifies :
    ∀ (s : ContainersProviderState) (r : CliResult (List RawContainer)),
      r.success = false →
      (providerStep s (ProviderEvent.refreshComplete r)).containers = []
      ∧ (providerStep s (ProviderEvent.refreshComplete r)).notificationsFired
          = s.notificationsFired + 1 := by
  intro s r h
  refine ⟨?_, rfl⟩
  show listContainersResult r = []
  rw [listContainersResult, h]

/-- Witness for `c2_failed_refresh_clears_and_notifies` at a concrete
state and failed result. -/
theorem c2_failed_refresh_clears_and_notifies_witness :
    (providerStep ⟨[], true, 1, 1, 5⟩
        (ProviderEvent.refreshComplete
          { success := false, data := none, error := some "boom", exitCode := 1 })).containers = []
    ∧ (providerStep ⟨[], true, 1, 1, 5⟩
        (ProviderEvent.refreshComplete
          { success := false, data := none, error := some "boom", exitCode := 1 })).notificationsFired = 6 :=
  c2_failed_refresh_clears_and_notifies ⟨[], true, 1, 1, 5⟩
    { success := false, data := none, error := some "boom", exitCode := 1 } rfl

/-- C4 counterexample: in the images provider, a population completes
(the CLI invocation returned successfully with the empty list), yet the
next read of the tree launches a further CLI invocation — `launched`
climbs from 1 to 2 — because the guard looks only at emptiness of the
cached list, not at whether a population has happened. -/
theorem c4_read_after_population_counterexample :
    (runImagesEvents ⟨[], 0, 0, 0⟩
        [ImagesProviderEvent.tick,
         ImagesProviderEvent.refreshComplete [],
         ImagesProviderEvent.getChildrenCall]).launched = 2
    ∧ (runImagesEvents ⟨[], 0, 0, 0⟩
        [ImagesProviderEvent.tick,
         ImagesProviderEvent.refreshComplete []]).launched = 1 := by
  decide

/-- C4 amended: the containers provider gates reads on a first-load flag
— once any population has completed, a read never launches an invocation
even on an empty snapshot, and before the first population every read
does launch one.  The images provider (and identically volumes and
networks) instead launches a refresh on every read whose cached list is
empty — including after a completed population returned the empty list —
and never when the list is non-empty. -/
theorem c4_read_refresh_policy :
    (∀ s : ContainersProviderState, s.initialLoadDone = true →
        providerStep s ProviderEvent.getChildrenCall = s)
    ∧ (∀ s : ContainersProviderState, s.initialLoadDone = false →
        (providerStep s ProviderEvent.getChildrenCall).launched = s.launched + 1)
    ∧ (∀ s : ImagesProviderState, s.images ≠ [] →
        imagesProviderStep s ImagesProviderEvent.getChildrenCall = s)
    ∧ (∀ s : ImagesProviderState, s.images = [] →
        (imagesProviderStep s ImagesProviderEvent.getChildrenCall).launched = s.launched + 1) := by
  refine ⟨?_, ?_, ?_, ?_⟩
  · intro s h
    show (if s.initialLoadDone then s else _) = s
    rw [h]
    rfl
  · intro s h
    show (if s.initialLoadDone then s else _).launched = s.launched + 1
    rw [h]
    rfl
  · intro s h
    show (if s.images.length = 0 then _ else s) = s
    rw [if_neg]
    simpa using h
  · intro s h
    show (if s.images.length = 0 then _ else s).launched = s.launched + 1
    rw [if_pos]
    simp [h]

/-- Witness for `c4_read_refresh_policy` at concrete provider states. -/
theorem c4_read_refresh_policy_witness :
    providerStep ⟨[], true, 0, 3, 2⟩ ProviderEvent.getChildrenCall = ⟨[], true, 0, 3, 2⟩
    ∧ (providerStep ⟨[], false, 0, 0, 0⟩ ProviderEvent.getChildrenCall).launched = 1
    ∧ (imagesProviderStep ⟨[], 0, 4, 1⟩ ImagesProviderEvent.getChildrenCall).launched = 5 :=
  ⟨c4_read_refresh_policy.1 ⟨[], true, 0, 3, 2⟩ rfl,
   c4_read_refresh_policy.2.1 ⟨[], false, 0, 0, 0⟩ rfl,
   c4_read_refresh_policy.2.2.2 ⟨[], 0, 4, 1⟩ rfl⟩

/-- C5 counterexample: providers are constructed under an interval of
5000 ms, then the configuration changes to 1000 ms; after the change
notification the containers timer still runs with period 5000, not the
newly configured 1000 — nothing tears down or restarts it. -/
theorem c5_config_change_counterexample :
    (onDidChangeConfigurationStep
        (activateProvidersState ⟨"container", 5000, true, "/bin/sh", true⟩)
        ⟨"container", 1000, true, "/bin/sh", true⟩).containersTimer = some 5000
    ∧ (onDidChangeConfigurationStep
        (activateProvidersState ⟨"container", 5000, true, "/bin/sh", true⟩)
        ⟨"container", 1000, true, "/bin/sh", true⟩).containersTimer ≠ some 1000 := by
  decide

/-- C5 amended: the configuration-change handler only replaces the stored
`ExtensionConfig`; none of the four providers' repeating timers is torn
down or restarted, so each keeps the period read from the configuration
at construction time.  Timers change only through
`stopAutoRefresh`/`dispose`. -/
theorem c5_config_change_leaves_timers :
    ∀ (s : ExtensionSystemState) (newCfg : ExtensionConfig),
      (onDidChangeConfigurationStep s newCfg).config = newCfg
      ∧ (onDidChangeConfigurationStep s newCfg).containersTimer = s.containersTimer
      ∧ (onDidChangeConfigurationStep s newCfg).imagesTimer = s.imagesTimer
      ∧ (onDidChangeConfigurationStep s newCfg).volumesTimer = s.volumesTimer
      ∧ (onDidChangeConfigurationStep s newCfg).networksTimer = s.networksTimer := by
  intro s newCfg
  exact ⟨rfl, rfl, rfl, rfl, rfl⟩

/-- C9: for the sample run request (one port 8080:80, one read-only
volume /data:/app, all other optional fields absent) the built argument
vector is exactly `run --publish 8080:80 --volume /data:/app:ro
nginx:latest` — one `--publish` with value "8080:80", one `--volume` with
value "/data:/app:ro", no extraneous or empty tokens; and for every run
request in which every optional field is absent the vector is exactly
`run <image>`, so absent fields contribute no tokens at all. -/
theorem c9_run_argument_vector :
    runContainerArgs sampleRunRequest
      = ["run", "--publish", "8080:80", "--volume", "/data:/app:ro", "nginx:latest"]
    ∧ (runContainerArgs sampleRunRequest).count "--publish" = 1
    ∧ (runContainerArgs sampleRunRequest).count "--volume" = 1
    ∧ (∀ img : String, runContainerArgs { image := img } = ["run", img]) := by
  refine ⟨by rfl, by rfl, by rfl, ?_⟩
  intro img
  simp [runContainerArgs, optStrTokens, boolFlagTokens, kvPairTokens, eachTokens]

/-- C3 counterexample: with `parseJson = true` and a cleanly exited
subprocess whose stdout is the empty string — which is not valid JSON,
`JSON.parse('')` throws — the gateway does not report a parse failure: it
skips the JSON branch (the trimmed stdout is falsy) and returns
success=true with the raw empty text as data. -/
theorem c3_empty_stdout_counterexample :
    (executeOnSuccess true "" false).success = true
    ∧ (executeOnSuccess true "" false).error = none
    ∧ (executeOnSuccess true "" false).data = some "" := by
  decide

/-- C3 amended: for `parseJson = true` on a cleanly exited subprocess,
when the trimmed stdout is non-empty and fails to decode as JSON the
gateway returns success=false with error "Failed to parse JSON output"
(capital F) and exitCode 0; when the trimmed stdout is empty — the empty
string included — the JSON decode is skipped entirely and the gateway
returns success=true with the raw stdout as data. -/
theorem c3_json_decode_failure_behavior :
    (∀ (stdout : String) (jsonDecodes : Bool),
       strTrim stdout ≠ "" → jsonDecodes = false →
       executeOnSuccess true stdout jsonDecodes
         = { success := false, data := none,
             error := some "Failed to parse JSON output", exitCode := 0 })
    ∧ (∀ (stdout : String) (jsonDecodes : Bool),
       strTrim stdout = "" →
       executeOnSuccess true stdout jsonDecodes
         = { success := true, data := some stdout, error := none, exitCode := 0 }) := by
  constructor
  · intro stdout jsonDecodes htrim hdec
    rw [executeOnSuccess, if_pos ⟨rfl, htrim⟩, if_neg]
    rw [hdec]
    simp
  · intro stdout jsonDecodes htrim
    rw [executeOnSuccess, if_neg]
    intro hand
    exact hand.2 htrim

/-- Witness for `c3_json_decode_failure_behavior` at non-empty
undecodable stdout and at empty stdout. -/
theorem c3_json_decode_failure_behavior_witness :
    executeOnSuccess true "oops" false
      = { success := false, data := none,
          error := some "Failed to parse JSON output", exitCode := 0 }
    ∧ executeOnSuccess true "" true
      = { success := true, data := some "", error := none, exitCode := 0 } :=
  ⟨c3_json_decode_failure_behavior.1 "oops" false (by decide) rfl,
   c3_json_decode_failure_behavior.2 "" true (by decide)⟩
theorem lastIndexOf_eq_some (s : String) (c : Char) (i : Nat)
    (h : lastIdxAux s.data c = some i) : lastIndexOf s c = (i : Int) := by
  simp [lastIndexOf, h]

theorem lastIndexOf_eq_neg_one (s : String) (c : Char)
    (h : lastIdxAux s.data c = none) : lastIndexOf s c = -1 := by
  simp [lastIndexOf, h]

theorem lastIdxAux_get? (c : Char) :
    ∀ (l : List Char) (i : Nat), lastIdxAux l c = some i → l.get? i = some c := by
  intro l
  induction l with
  | nil => intro i h; simp [lastIdxAux] at h
  | cons ch rest ih =>
    intro i h
    simp only [lastIdxAux] at h
    cases hr : lastIdxAux rest c with
    | some k =>
      rw [hr] at h
      simp only [Option.some.injEq] at h
      subst h
      exact ih k hr
    | none =>
      rw [hr] at h
      by_cases hc : ch = c
      · rw [if_pos hc] at h
        simp only [Option.some.injEq] at h
        subst h
        simp [hc]
      · rw [if_neg hc] at h
        exact absurd h (by simp)

theorem lastIdxAux_none_get? (c : Char) :
    ∀ (l : List Char), lastIdxAux l c = none → ∀ j, l.get? j ≠ some c := by
  intro l
  induction l with
  | nil => intro _ j; simp
  | cons ch rest ih =>
    intro h j
    simp only [lastIdxAux] at h
    cases hr : lastIdxAux rest c with
    | some k => rw [hr] at h; exact absurd h (by simp)
    | none =>
      rw [hr] at h
      by_cases hc : ch = c
      · rw [if_pos hc] at h; exact absurd h (by simp)
      · cases j with
        | zero =>
          intro hget
          simp only [List.get?_cons_zero, Option.some.injEq] at hget
          exact hc hget
        | succ j' => exact ih hr j'

theorem lastIdxAux_gt (c : Char) :
    ∀ (l : List Char) (i j : Nat), lastIdxAux l c = some i → i < j → l.get? j ≠ some c := by
  intro l
  induction l with
  | nil => intro i j h _; simp [lastIdxAux] at h
  | cons ch rest ih =>
    intro i j h hij
    simp only [lastIdxAux] at h
    cases hr : lastIdxAux rest c with
    | some k =>
      rw [hr] at h
      simp only [Option.some.injEq] at h
      subst h
      cases j with
      | zero => omega
      | succ j' =>
        intro hget
        exact ih k j' hr (by omega) hget
    | none =>
      rw [hr] at h
      by_cases hc : ch = c
      · rw [if_pos hc] at h
        simp only [Option.some.injEq] at h
        subst h
        cases j with
        | zero => omega
        | succ j' =>
          intro hget
          exact lastIdxAux_none_get? c rest hr j' hget
      · rw [if_neg hc] at h
        exact absurd h (by simp)

theorem lastIdxAux_of_get? (c : Char) :
    ∀ (l : List Char) (j : Nat), l.get? j = some c → ∃ i, lastIdxAux l c = some i ∧ j ≤ i := by
  intro l
  induction l with
  | nil => intro j h; simp at h
  | cons ch rest ih =>
    intro j h
    cases j with
    | zero =>
      have hc : ch = c := by simpa using h
      cases hr : lastIdxAux rest c with
      | some k =>
        refine ⟨k + 1, ?_, by omega⟩
        simp [lastIdxAux, hr]
      | none =>
        refine ⟨0, ?_, Nat.le_refl 0⟩
        simp [lastIdxAux, hr, hc]
    | succ j' =>
      have h' : rest.get? j' = some c := h
      obtain ⟨i, hi, hj⟩ := ih j' h'
      refine ⟨i + 1, ?_, by omega⟩
      simp [lastIdxAux, hi]

theorem lastIdxAux_not_mem (c : Char) :
    ∀ (l : List Char), c ∉ l → lastIdxAux l c = none := by
  intro l
  induction l with
  | nil => intro _; rfl
  | cons ch rest ih =>
    intro h
    have h1 : ¬(ch = c) := fun hc => h (by rw [← hc]; exact List.mem_cons_self ch rest)
    have h2 : c ∉ rest := fun hm => h (List.mem_cons_of_mem ch hm)
    simp [lastIdxAux, ih h2, h1]

theorem lastIdxAux_append_cons (c : Char) :
    ∀ (pre post : List Char), c ∉ post → lastIdxAux (pre ++ c :: post) c = some pre.length := by
  intro pre post hpost
  induction pre with
  | nil => simp [lastIdxAux, lastIdxAux_not_mem c post hpost]
  | cons p pre ih => simp [lastIdxAux, ih]

theorem take_len_append :
    ∀ (pre rest : List Char), (pre ++ rest).take pre.length = pre := by
  intro pre rest
  induction pre with
  | nil => rfl
  | cons p pre ih => simpa using ih

theorem drop_len_append :
    ∀ (pre rest : List Char), (pre ++ rest).drop pre.length = rest := by
  intro pre rest
  induction pre with
  | nil => rfl
  | cons p pre ih => simpa using ih

theorem drop_len_append_cons :
    ∀ (pre rest : List Char) (x : Char), (pre ++ x :: rest).drop (pre.length + 1) = rest := by
  intro pre rest x
  induction pre with
  | nil => rfl
  | cons p pre ih => simpa using ih

theorem drop_eq_get?_cons :
    ∀ (l : List Char) (i : Nat) (c : Char), l.get? i = some c → l.drop i = c :: l.drop (i + 1) := by
  intro l
  induction l with
  | nil => intro i c h; simp at h
  | cons ch rest ih =>
    intro i c h
    cases i with
    | zero =>
      have hc : ch = c := by simpa using h
      simp [hc]
    | succ i' =>
      have h' : rest.get? i' = some c := h
      simpa using ih i' c h'

theorem get?_drop_add :
    ∀ (l : List Char) (n m : Nat), (l.drop n).get? m = l.get? (n + m) := by
  intro l
  induction l with
  | nil => intro n m; simp
  | cons ch rest ih =>
    intro n m
    cases n with
    | zero => simp
    | succ n' =>
      have h := ih n' m
      simpa [Nat.succ_add] using h

theorem mem_of_get?_eq :
    ∀ (l : List Char) (n : Nat) (a : Char), l.get? n = some a → a ∈ l := by
  intro l
  induction l with
  | nil => intro n a h; simp at h
  | cons ch rest ih =>
    intro n a h
    cases n with
    | zero =>
      have hc : ch = a := by simpa using h
      rw [← hc]
      exact List.mem_cons_self ch rest
    | succ n' => exact List.mem_cons_of_mem ch (ih n' a h)

theorem exists_get?_of_mem :
    ∀ (l : List Char) (a : Char), a ∈ l → ∃ n, l.get? n = some a := by
  intro l
  induction l with
  | nil => intro a h; simp at h
  | cons ch rest ih =>
    intro a h
    rcases List.mem_cons.mp h with h1 | h2
    · exact ⟨0, by simp [h1]⟩
    · obtain ⟨n, hn⟩ := ih a h2
      exact ⟨n + 1, by simpa using hn⟩

theorem append_get?_lt :
    ∀ (pre post : List Char) (x c : Char) (s : Nat),
      (pre ++ x :: post).get? s = some c → c ≠ x → c ∉ post → s < pre.length := by
  intro pre
  induction pre with
  | nil =>
    intro post x c s h hx hpost
    cases s with
    | zero =>
      have hc : x = c := by simpa using h
      exact absurd hc.symm hx
    | succ s' =>
      have h' : post.get? s' = some c := h
      exact absurd (mem_of_get?_eq post s' c h') hpost
  | cons p pre ih =>
    intro post x c s h hx hpost
    cases s with
    | zero => simp
    | succ s' =>
      have h' : (pre ++ x :: post).get? s' = some c := h
      have hlt := ih post x c s' h' hx hpost
      simpa using Nat.succ_lt_succ hlt

theorem decomposeReference_spec (reference : String) :
    (∃ pre post : List Char,
       reference.data = pre ++ ':' :: post ∧ ':' ∉ post ∧ '/' ∉ post ∧
       decomposeReference reference = (stripLibraryRegistry ⟨pre⟩, ⟨post⟩))
    ∨ ((∀ pre post : List Char,
          reference.data = pre ++ ':' :: post → ':' ∉ post → '/' ∉ post → False)
       ∧ decomposeReference reference = (stripLibraryRegistry reference, "latest")) := by
  by_cases hbr : lastIndexOf reference ':' > lastIndexOf reference '/'
  · left
    cases hc : lastIdxAux reference.data ':' with
    | none =>
      exfalso
      have h1 := lastIndexOf_eq_neg_one reference ':' hc
      rw [h1] at hbr
      cases hs : lastIdxAux reference.data '/' with
      | none =>
        have h2 := lastIndexOf_eq_neg_one reference '/' hs
        rw [h2] at hbr
        omega
      | some s =>
        have h2 := lastIndexOf_eq_some reference '/' s hs
        rw [h2] at hbr
        omega
    | some i =>
      have hcol : lastIndexOf reference ':' = (i : Int) := lastIndexOf_eq_some reference ':' i hc
      have hgeti : reference.data.get? i = some ':' := lastIdxAux_get? ':' reference.data i hc
      refine ⟨reference.data.take i, reference.data.drop (i + 1), ?_, ?_, ?_, ?_⟩
      · conv_lhs => rw [← List.take_append_drop i reference.data]
        rw [drop_eq_get?_cons reference.data i ':' hgeti]
      · intro hmem
        obtain ⟨k, hk⟩ := exists_get?_of_mem _ _ hmem
        rw [get?_drop_add] at hk
        exact lastIdxAux_gt ':' reference.data i (i + 1 + k) hc (by omega) hk
      · intro hmem
        obtain ⟨k, hk⟩ := exists_get?_of_mem _ _ hmem
        rw [get?_drop_add] at hk
        obtain ⟨s, hs, hks⟩ := lastIdxAux_of_get? '/' reference.data (i + 1 + k) hk
        have hsl : lastIndexOf reference '/' = (s : Int) := lastIndexOf_eq_some reference '/' s hs
        rw [hcol, hsl] at hbr
        omega
      · simp only [decomposeReference]
        rw [if_pos hbr, hcol]
        simp
  · right
    constructor
    · intro pre post heq hcp hsp
      have hc : lastIdxAux reference.data ':' = some pre.length := by
        rw [heq]
        exact lastIdxAux_append_cons ':' pre post hcp
      have hcol : lastIndexOf reference ':' = (pre.length : Int) :=
        lastIndexOf_eq_some reference ':' pre.length hc
      cases hs : lastIdxAux reference.data '/' with
      | none =>
        have hsl := lastIndexOf_eq_neg_one reference '/' hs
        rw [hcol, hsl] at hbr
        exact hbr (by omega)
      | some s =>
        have hgets : reference.data.get? s = some '/' := lastIdxAux_get? '/' reference.data s hs
        rw [heq] at hgets
        have hlt : s < pre.length := append_get?_lt pre post ':' '/' s hgets (by decide) hsp
        have hsl : lastIndexOf reference '/' = (s : Int) := lastIndexOf_eq_some reference '/' s hs
        rw [hcol, hsl] at hbr
        omega
    · simp only [decomposeReference]
      rw [if_neg hbr]

theorem stripLibraryRegistry_strips (rest : String) :
    stripLibraryRegistry ⟨"docker.io/library/".data ++ rest.data⟩ = rest := by
  have h1 : dataStarts ⟨"docker.io/library/".data ++ rest.data⟩ "docker.io/library/" = true := by
    simp [dataStarts, take_len_append]
  rw [stripLibraryRegistry, if_pos h1]
  show (⟨("docker.io/library/".data ++ rest.data).drop "docker.io/library/".data.length⟩ : String) = rest
  rw [drop_len_append]

/-- C6: reference decomposition in `parseRawImage` splits at the last ':'
exactly when it occurs after the last '/': for every reference string,
either the string decomposes as `pre ++ ':' :: post` with no ':' and no
'/' in `post` (that colon is then the last colon, after the last slash)
and the result is (`pre` with the docker.io prefix simplification, `post`),
or no such split exists and the result is the whole string (prefix
simplified) with tag "latest".  A leading `docker.io/library/` is stripped
from the repository, and the spec's four sample references — plus a plain
`docker.io/` one — decompose as documented. -/
theorem c6_reference_decomposition :
    (∀ reference : String,
       (∃ pre post : List Char,
          reference.data = pre ++ ':' :: post ∧ ':' ∉ post ∧ '/' ∉ post ∧
          decomposeReference reference = (stripLibraryRegistry ⟨pre⟩, ⟨post⟩))
       ∨ ((∀ pre post : List Char,
             reference.data = pre ++ ':' :: post → ':' ∉ post → '/' ∉ post → False)
          ∧ decomposeReference reference = (stripLibraryRegistry reference, "latest")))
    ∧ (∀ rest : String, stripLibraryRegistry ⟨"docker.io/library/".data ++ rest.data⟩ = rest)
    ∧ decomposeReference "nginx:latest" = ("nginx", "latest")
    ∧ decomposeReference "docker.io/library/nginx:1.25" = ("nginx", "1.25")
    ∧ decomposeReference "myregistry.local:5000/app:v2" = ("myregistry.local:5000/app", "v2")
    ∧ decomposeReference "myimage" = ("myimage", "latest")
    ∧ decomposeReference "docker.io/nginx:1.25" = ("nginx", "1.25") :=
  ⟨decomposeReference_spec, stripLibraryRegistry_strips,
   by decide, by decide, by decide, by decide, by decide⟩
